import Mathlib

/-!
Verification of the credential-rotation Invoker (`GeminiService.executeWithRetry`,
src/services/geminiService.ts) and the batch re-train controller
(`executeRetrain` of the Knowledge page) of the AGENT-TIAR repository.

The service is embedded as a pure function: the external API call
(`operation(ai)` on a client built from one credential) becomes a parameter
`op : Nat → Except ε α` from the pool index of the credential tried to either a
result or a per-attempt error; observable effects (`window.dispatchEvent` of
the `api-key-rotate` CustomEvent, client construction plus the attempt) are
collected in an event trace; the post-call value of the mutable field
`currentKeyIndex` is returned as `finalIndex` (the source mutates the field
only in the success branch, so on every failure it keeps its entry value).

The batch controller is embedded likewise: the Firebase record
`trainingProgress/<agentId>` becomes an `Option BatchProgress` (absent =
`none`, `Date.now()` timestamps omitted); the per-item work (restoring files
from the stored data and `gemini.analyzeContent`) becomes a parameter
`analyze : Nat → Except String Unit` from the loop index of the item to
success or a thrown error message; the externally settable `stopRetrainRef`
becomes `stopFlag : Nat → Bool`, its value when the loop reaches an index.
-/

namespace AgentTiar

/-- Embeds the skip test `!apiKey || !apiKey.trim()` of the source: a key is
skipped exactly when it is empty or whitespace-only, i.e. when every character
is whitespace. -/
def isBlankKey (s : String) : Bool := s.data.all Char.isWhitespace

/-- Observable events of one `executeWithRetry` call, in order: `rotate k` is
the dispatch of the `api-key-rotate` CustomEvent with `detail.index = k`
(1-based pool index); `attempt idx` is the construction of a client bound to
the credential at pool index `idx` followed by the call of the operation. -/
inductive RetryEvent where
  | rotate (oneBased : Nat)
  | attempt (index : Nat)
deriving DecidableEq, Repr

/-- Outcome of one `executeWithRetry` call. `noKeysConfigured` embeds the throw
of `new Error("No API Keys configured. Please add them in Settings.")`;
`thrownLast e` embeds `throw lastError` after loop exhaustion; `allKeysFailed`
embeds `throw new Error("All API keys failed.")`, reached on exhaustion when
`lastError` was never assigned. -/
inductive RetryOutcome (ε α : Type) where
  | ok (a : α)
  | noKeysConfigured
  | thrownLast (e : ε)
  | allKeysFailed
deriving DecidableEq, Repr

/-- True exactly on the success outcome. -/
def RetryOutcome.isOk : RetryOutcome ε α → Bool
  | .ok _ => true
  | _ => false

/-- The message of the `Error` object thrown by the service itself; `none` for
success and for the rethrow of the last per-attempt error. -/
def RetryOutcome.errorMessage : RetryOutcome ε α → Option String
  | .ok _ => none
  | .noKeysConfigured => some "No API Keys configured. Please add them in Settings."
  | .thrownLast _ => none
  | .allKeysFailed => some "All API keys failed."

/-- Result of one `executeWithRetry` call: its outcome, the trace of observable
events, and the value of `currentKeyIndex` after the call returns. -/
structure RetryResult (ε α : Type) where
  outcome : RetryOutcome ε α
  events : List RetryEvent
  finalIndex : Nat
deriving DecidableEq, Repr

/-- Embeds the `for (let i = 0; ...)` loop of `executeWithRetry`
(src/services/geminiService.ts lines 45-74), entered at loop position `i` with
the current `lastError` and the events emitted so far.  Each position checks
the key at `(currentKeyIndex + i) % apiKeys.length`; a blank key is skipped
with no event; otherwise, for `i > 0`, the rotation event is dispatched, then
the attempt is made; success returns at once recording the sticky index,
failure records `lastError` and continues; exhaustion throws `lastError` if
assigned, else the generic error. -/
def executeLoop (keys : List String) (cki : Nat) (op : Nat → Except ε α)
    (i : Nat) (lastError : Option ε) (events : List RetryEvent) : RetryResult ε α :=
  if h : i < keys.length then
    let indexToCheck := (cki + i) % keys.length
    let apiKey := keys.getD indexToCheck ""
    if isBlankKey apiKey then
      executeLoop keys cki op (i + 1) lastError events
    else
      let events1 := if 0 < i then events ++ [RetryEvent.rotate (indexToCheck + 1)] else events
      let events2 := events1 ++ [RetryEvent.attempt indexToCheck]
      match op indexToCheck with
      | Except.ok a =>
          { outcome := RetryOutcome.ok a, events := events2, finalIndex := indexToCheck }
      | Except.error e => executeLoop keys cki op (i + 1) (some e) events2
  else
    { outcome := match lastError with
        | some e => RetryOutcome.thrownLast e
        | none => RetryOutcome.allKeysFailed,
      events := events, finalIndex := cki }
termination_by keys.length - i

/-- The credential pool state of the service: the array `apiKeys` and the
sticky field `currentKeyIndex` (0 at construction). -/
structure GeminiService where
  apiKeys : List String
  currentKeyIndex : Nat
deriving DecidableEq, Repr

/-- Embeds `GeminiService.executeWithRetry`: if the pool is empty, throw the
configuration error before any attempt; otherwise run the rotation loop from
loop position 0 with `lastError` unassigned. -/
def GeminiService.executeWithRetry (svc : GeminiService) (op : Nat → Except ε α) :
    RetryResult ε α :=
  if svc.apiKeys.length = 0 then
    { outcome := RetryOutcome.noKeysConfigured, events := [],
      finalIndex := svc.currentKeyIndex }
  else
    executeLoop svc.apiKeys svc.currentKeyIndex op 0 none []

/-- The circular candidate order of the spec: pool indices
`(k + i) % n` for `i = 0 .. n-1`. -/
def candidateOrder (n k : Nat) : List Nat :=
  (List.range n).map (fun i => (k + i) % n)

/-- Pool indices attempted, in order, read off the event trace. -/
def attemptsOf (events : List RetryEvent) : List Nat :=
  events.filterMap (fun e =>
    match e with
    | RetryEvent.attempt idx => some idx
    | RetryEvent.rotate _ => none)

/-- Payloads (1-based indices) of the rotation notifications, in order. -/
def rotatesOf (events : List RetryEvent) : List Nat :=
  events.filterMap (fun e =>
    match e with
    | RetryEvent.rotate k => some k
    | RetryEvent.attempt _ => none)

/-- Candidate indices from loop position `i` on that are non-blank, i.e. that
the loop will attempt, in order. -/
def failCandidates (keys : List String) (cki i : Nat) : List Nat :=
  ((List.range' i (keys.length - i)).map (fun pos => (cki + pos) % keys.length)).filter
    (fun idx => !(isBlankKey (keys.getD idx "")))

/-- One-based payloads of the rotation events the loop will emit from position
`i` on when every attempt fails. -/
def failRotates (keys : List String) (cki i : Nat) : List Nat :=
  ((List.range' i (keys.length - i)).filter
      (fun pos => decide (0 < pos) &&
        !(isBlankKey (keys.getD ((cki + pos) % keys.length) "")))).map
    (fun pos => (cki + pos) % keys.length + 1)

/-- A knowledge item, projected to the field the controller's control flow
reads: its database id. -/
structure KnowledgeItem where
  id : String
deriving DecidableEq, Repr

/-- The checkpoint record `trainingProgress/<agentId>`. -/
structure BatchProgress where
  lastProcessedId : String
  totalItems : Nat
  processedCount : Nat
  targetIds : Option (List String)
deriving DecidableEq, Repr

/-- Terminal state of one `executeRetrain` run: `noKeys` is the early return
when settings hold no API keys; `paused` is the return upon seeing the stop
flag; `completed` is the path that reports completion; `failed msg` is the
catch branch around the loop. -/
inductive RetrainStatus where
  | noKeys
  | paused
  | completed
  | failed (msg : String)
deriving DecidableEq, Repr

/-- Result of one `executeRetrain` run: terminal status, the checkpoint record
after the run, the items (ids, in order) handed to the analysis call, and the
items whose knowledge record was rewritten and checkpointed. -/
structure RetrainResult where
  status : RetrainStatus
  progress : Option BatchProgress
  calls : List String
  processed : List String
deriving DecidableEq, Repr

/-- Embeds the target-list computation: the knowledge list filtered to the
selected ids when a selection exists, else the whole list. -/
def targetItemsOf (knowledgeList : List KnowledgeItem) (selectedItemIds : List String) :
    List KnowledgeItem :=
  if 0 < selectedItemIds.length then
    knowledgeList.filter (fun k => selectedItemIds.contains k.id)
  else knowledgeList

/-- Embeds the start-index computation: on resume with a saved record whose
`lastProcessedId` is non-empty (a falsy empty string skips the branch), the
index of that id in the target list plus one, or 0 when `findIndex`
returns -1; 0 in every other case. -/
def computeStartIndex (resume : Bool) (savedProgress : Option BatchProgress)
    (targetItems : List KnowledgeItem) : Nat :=
  match resume, savedProgress with
  | true, some p =>
      if p.lastProcessedId.isEmpty then 0
      else
        match targetItems.findIdx? (fun k => k.id == p.lastProcessedId) with
        | some j => j + 1
        | none => 0
  | _, _ => 0

/-- Embeds the fresh checkpoint written by a non-resume run: empty
`lastProcessedId`, zero `processedCount`, and the selection recorded (null
when no selection). -/
def freshProgress (totalItems : Nat) (selectedItemIds : List String) : BatchProgress :=
  { lastProcessedId := "", totalItems := totalItems, processedCount := 0,
    targetIds := if 0 < selectedItemIds.length then some selectedItemIds else none }

/-- Embeds the per-item checkpoint `update(...)`: a merge that sets
`lastProcessedId`, `totalItems` and `processedCount`, creating the record when
it is absent. -/
def applyCheckpoint (db : Option BatchProgress) (lastId : String)
    (total count : Nat) : Option BatchProgress :=
  match db with
  | some p => some { p with lastProcessedId := lastId, totalItems := total,
                            processedCount := count }
  | none => some { lastProcessedId := lastId, totalItems := total,
                   processedCount := count, targetIds := none }

/-- The `targetIds` field of the checkpoint record, if present. -/
def targetIdsOf (db : Option BatchProgress) : Option (List String) :=
  match db with
  | some p => p.targetIds
  | none => none

/-- Embeds the `for (let i = startIndex; ...)` loop of `executeRetrain`: at
each index, first the stop flag is checked (pause keeps the checkpoint as it
stands); then the item is analyzed — a thrown error aborts the run through the
catch, keeping the checkpoint; on success the knowledge record and then the
checkpoint are updated and the loop continues; past the end, the run reports
completion and removes the checkpoint record. -/
def retrainLoop (targetItems : List KnowledgeItem) (analyze : Nat → Except String Unit)
    (stopFlag : Nat → Bool) (i : Nat) (db : Option BatchProgress)
    (calls processed : List String) : RetrainResult :=
  if h : i < targetItems.length then
    if stopFlag i then
      { status := RetrainStatus.paused, progress := db,
        calls := calls, processed := processed }
    else
      let item := targetItems.getD i { id := "" }
      match analyze i with
      | Except.error msg =>
          { status := RetrainStatus.failed msg, progress := db,
            calls := calls ++ [item.id], processed := processed }
      | Except.ok _ =>
          retrainLoop targetItems analyze stopFlag (i + 1)
            (applyCheckpoint db item.id targetItems.length (i + 1))
            (calls ++ [item.id]) (processed ++ [item.id])
  else
    { status := RetrainStatus.completed, progress := none,
      calls := calls, processed := processed }
termination_by targetItems.length - i

/-- Embeds `executeRetrain(resume)`: compute the target list; return early when
no API keys are configured; compute the start index; on a non-resume run reset
the checkpoint to the fresh record; then run the loop from the start index. -/
def executeRetrain (resume : Bool) (savedProgress : Option BatchProgress)
    (knowledgeList : List KnowledgeItem) (selectedItemIds : List String)
    (apiKeys : List String) (analyze : Nat → Except String Unit)
    (stopFlag : Nat → Bool) : RetrainResult :=
  let targetItems := targetItemsOf knowledgeList selectedItemIds
  if apiKeys.length = 0 then
    { status := RetrainStatus.noKeys, progress := savedProgress,
      calls := [], processed := [] }
  else
    let startIndex := computeStartIndex resume savedProgress targetItems
    let db0 := if resume then savedProgress
               else some (freshProgress targetItems.length selectedItemIds)
    retrainLoop targetItems analyze stopFlag startIndex db0 [] []

/-- A two-key pool on which every attempt fails, used to exercise the claim
theorems at a concrete input. -/
def svcTwoKeys : GeminiService := { apiKeys := ["k1", "k2"], currentKeyIndex := 0 }

/-- An operation that fails on every pool index. -/
def opAlwaysFail : Nat → Except String Nat := fun _ => Except.error "boom"

/-- The spec's example pool: first key fails, second succeeds, third unused. -/
def svcExample : GeminiService :=
  { apiKeys := ["bad1", "good", "bad2"], currentKeyIndex := 0 }

/-- The spec's example operation: index 1 succeeds, everything else fails. -/
def opExample : Nat → Except String String :=
  fun idx => if idx = 1 then Except.ok "out" else Except.error "boom"

/-- A service constructed with no keys at all. -/
def svcNoKeys : GeminiService := { apiKeys := [], currentKeyIndex := 7 }

/-- A pool whose two credentials are whitespace-only and empty. -/
def svcAllBlank : GeminiService := { apiKeys := [" ", ""], currentKeyIndex := 1 }

/-- A three-item knowledge list used by the batch-controller witnesses. -/
def klThree : List KnowledgeItem := [{ id := "a" }, { id := "b" }, { id := "c" }]

/-- A saved checkpoint pointing at the middle item of `klThree`. -/
def progressAtB : BatchProgress :=
  { lastProcessedId := "b", totalItems := 3, processedCount := 2, targetIds := none }

@[simp] theorem attemptsOf_nil : attemptsOf [] = [] := rfl

@[simp] theorem attemptsOf_append (a b : List RetryEvent) :
    attemptsOf (a ++ b) = attemptsOf a ++ attemptsOf b := by
  simp [attemptsOf]

@[simp] theorem attemptsOf_cons_attempt (idx : Nat) (es : List RetryEvent) :
    attemptsOf (RetryEvent.attempt idx :: es) = idx :: attemptsOf es := rfl

@[simp] theorem attemptsOf_cons_rotate (k : Nat) (es : List RetryEvent) :
    attemptsOf (RetryEvent.rotate k :: es) = attemptsOf es := rfl

@[simp] theorem rotatesOf_nil : rotatesOf [] = [] := rfl

@[simp] theorem rotatesOf_append (a b : List RetryEvent) :
    rotatesOf (a ++ b) = rotatesOf a ++ rotatesOf b := by
  simp [rotatesOf]

@[simp] theorem rotatesOf_cons_attempt (idx : Nat) (es : List RetryEvent) :
    rotatesOf (RetryEvent.attempt idx :: es) = rotatesOf es := rfl

@[simp] theorem rotatesOf_cons_rotate (k : Nat) (es : List RetryEvent) :
    rotatesOf (RetryEvent.rotate k :: es) = k :: rotatesOf es := rfl

theorem executeLoop_exhaust (keys : List String) (cki : Nat) (op : Nat → Except ε α)
    (i : Nat) (le : Option ε) (ev : List RetryEvent) (hni : ¬ i < keys.length) :
    executeLoop keys cki op i le ev =
      { outcome := match le with
          | some e => RetryOutcome.thrownLast e
          | none => RetryOutcome.allKeysFailed,
        events := ev, finalIndex := cki } := by
  rw [executeLoop.eq_def]
  simp [hni]

theorem executeLoop_step_blank (keys : List String) (cki : Nat) (op : Nat → Except ε α)
    (i : Nat) (le : Option ε) (ev : List RetryEvent) (hi : i < keys.length)
    (hb : isBlankKey (keys.getD ((cki + i) % keys.length) "") = true) :
    executeLoop keys cki op i le ev = executeLoop keys cki op (i + 1) le ev := by
  rw [executeLoop.eq_def]
  simp only [dif_pos hi]
  rw [if_pos hb]

theorem executeLoop_step_ok (keys : List String) (cki : Nat) (op : Nat → Except ε α)
    (i : Nat) (le : Option ε) (ev : List RetryEvent) (a : α) (hi : i < keys.length)
    (hb : isBlankKey (keys.getD ((cki + i) % keys.length) "") = false)
    (hok : op ((cki + i) % keys.length) = Except.ok a) :
    executeLoop keys cki op i le ev =
      { outcome := RetryOutcome.ok a,
        events := (if 0 < i then
            ev ++ [RetryEvent.rotate ((cki + i) % keys.length + 1)] else ev) ++
          [RetryEvent.attempt ((cki + i) % keys.length)],
        finalIndex := (cki + i) % keys.length } := by
  rw [executeLoop.eq_def]
  simp only [dif_pos hi]
  rw [if_neg (by rw [hb]; exact Bool.false_ne_true)]
  simp only [hok]

theorem executeLoop_step_err (keys : List String) (cki : Nat) (op : Nat → Except ε α)
    (i : Nat) (le : Option ε) (ev : List RetryEvent) (e : ε) (hi : i < keys.length)
    (hb : isBlankKey (keys.getD ((cki + i) % keys.length) "") = false)
    (herr : op ((cki + i) % keys.length) = Except.error e) :
    executeLoop keys cki op i le ev =
      executeLoop keys cki op (i + 1) (some e)
        ((if 0 < i then
            ev ++ [RetryEvent.rotate ((cki + i) % keys.length + 1)] else ev) ++
          [RetryEvent.attempt ((cki + i) % keys.length)]) := by
  rw [executeLoop.eq_def]
  simp only [dif_pos hi]
  rw [if_neg (by rw [hb]; exact Bool.false_ne_true)]
  simp only [herr]

theorem executeLoop_all_fail_aux (keys : List String) (cki : Nat)
    (op : Nat → Except ε α) (err : Nat → ε)
    (hop : ∀ idx, idx < keys.length → isBlankKey (keys.getD idx "") = false →
      op idx = Except.error (err idx)) :
    ∀ f i lastError events, keys.length - i = f →
      (executeLoop keys cki op i lastError events).outcome =
        (match (failCandidates keys cki i).foldl (fun _ idx => some (err idx)) lastError with
         | some e => RetryOutcome.thrownLast e
         | none => RetryOutcome.allKeysFailed) ∧
      attemptsOf (executeLoop keys cki op i lastError events).events =
        attemptsOf events ++ failCandidates keys cki i ∧
      rotatesOf (executeLoop keys cki op i lastError events).events =
        rotatesOf events ++ failRotates keys cki i ∧
      (executeLoop keys cki op i lastError events).finalIndex = cki := by
  intro f
  induction f with
  | zero =>
    intro i le ev hf
    have hni : ¬ i < keys.length := by omega
    rw [executeLoop_exhaust keys cki op i le ev hni]
    simp [failCandidates, failRotates, hf]
  | succ f ih =>
    intro i le ev hf
    have hi : i < keys.length := by omega
    have hf1 : keys.length - (i + 1) = f := by omega
    have hrange : List.range' i (keys.length - i) = i :: List.range' (i + 1) f := by
      rw [hf]
      rfl
    by_cases hb : isBlankKey (keys.getD ((cki + i) % keys.length) "") = true
    · rw [executeLoop_step_blank keys cki op i le ev hi hb]
      have h3 := ih (i + 1) le ev hf1
      refine ⟨?_, ?_, ?_, h3.2.2.2⟩
      · rw [h3.1]
        simp only [failCandidates, hrange, hf1, List.map_cons, List.filter_cons, hb,
          Bool.not_true, Bool.false_eq_true, if_false, reduceIte]
      · rw [h3.2.1]
        simp only [failCandidates, hrange, hf1, List.map_cons, List.filter_cons, hb,
          Bool.not_true, Bool.false_eq_true, if_false, reduceIte]
      · rw [h3.2.2.1]
        simp only [failRotates, hrange, hf1, List.filter_cons, hb,
          Bool.not_true, Bool.and_false, Bool.false_eq_true, if_false, reduceIte]
    · have hb' : isBlankKey (keys.getD ((cki + i) % keys.length) "") = false := by
        simpa using hb
      rw [executeLoop_step_err keys cki op i le ev _ hi hb'
        (hop _ (Nat.mod_lt _ (by omega)) hb')]
      have h3 := ih (i + 1) (some (err ((cki + i) % keys.length)))
        ((if 0 < i then ev ++ [RetryEvent.rotate ((cki + i) % keys.length + 1)] else ev) ++
          [RetryEvent.attempt ((cki + i) % keys.length)]) hf1
      refine ⟨?_, ?_, ?_, h3.2.2.2⟩
      · rw [h3.1]
        simp only [failCandidates, hrange, hf1, List.map_cons, List.filter_cons, hb',
          Bool.not_false, if_true, List.foldl_cons, reduceIte]
      · rw [h3.2.1]
        simp only [failCandidates, hrange, hf1, List.map_cons, List.filter_cons, hb',
          Bool.not_false, if_true, reduceIte]
        by_cases hzi : 0 < i <;> simp [hzi]
      · rw [h3.2.2.1]
        simp only [failRotates, hrange, hf1, List.filter_cons, hb',
          Bool.not_false, Bool.and_true, reduceIte]
        by_cases hzi : 0 < i <;> simp [hzi]

theorem mem_candidateOrder {n k x : Nat} (hn : 0 < n) :
    x ∈ candidateOrder n k ↔ x < n := by
  unfold candidateOrder
  simp only [List.mem_map, List.mem_range]
  constructor
  · rintro ⟨i, _, rfl⟩
    exact Nat.mod_lt _ hn
  · intro hx
    refine ⟨(x + n - k % n) % n, Nat.mod_lt _ hn, ?_⟩
    have h1 : (k + (x + n - k % n) % n) % n = (k + (x + n - k % n)) % n :=
      (Nat.ModEq.add_left k (Nat.mod_modEq _ n))
    have h2 : k + (x + n - k % n) = n * (k / n) + (x + n) := by
      have hdm := Nat.div_add_mod k n
      have hkn : k % n < n := Nat.mod_lt _ hn
      omega
    calc (k + (x + n - k % n) % n) % n
        = (k + (x + n - k % n)) % n := h1
      _ = (n * (k / n) + (x + n)) % n := by rw [h2]
      _ = (x + n) % n := by rw [Nat.mul_add_mod]
      _ = x % n := by rw [Nat.add_mod_right]
      _ = x := Nat.mod_eq_of_lt hx

theorem candidateOrder_nodup (n k : Nat) : (candidateOrder n k).Nodup := by
  unfold candidateOrder
  refine List.Nodup.map_on ?_ (List.nodup_range n)
  intro i hi j hj hij
  simp only [List.mem_range] at hi hj
  have h2 : i % n = j % n := Nat.ModEq.add_left_cancel' k hij
  rw [Nat.mod_eq_of_lt hi, Nat.mod_eq_of_lt hj] at h2
  exact h2

theorem failCandidates_zero (keys : List String) (cki : Nat) :
    failCandidates keys cki 0 =
      (candidateOrder keys.length cki).filter
        (fun idx => !(isBlankKey (keys.getD idx ""))) := by
  unfold failCandidates candidateOrder
  rw [List.range_eq_range']
  simp

theorem executeLoop_all_blank_aux (keys : List String) (cki : Nat)
    (op : Nat → Except ε α)
    (hbl : ∀ idx, idx < keys.length → isBlankKey (keys.getD idx "") = true) :
    ∀ f i lastError events, keys.length - i = f →
      executeLoop keys cki op i lastError events =
        { outcome := match lastError with
            | some e => RetryOutcome.thrownLast e
            | none => RetryOutcome.allKeysFailed,
          events := events, finalIndex := cki } := by
  intro f
  induction f with
  | zero =>
    intro i le ev hf
    exact executeLoop_exhaust keys cki op i le ev (by omega)
  | succ f ih =>
    intro i le ev hf
    have hi : i < keys.length := by omega
    rw [executeLoop_step_blank keys cki op i le ev hi
      (hbl _ (Nat.mod_lt _ (by omega)))]
    exact ih (i + 1) le ev (by omega)

theorem executeLoop_success_aux (keys : List String) (cki : Nat)
    (op : Nat → Except ε α) (j : Nat) (a : α)
    (hj : j < keys.length)
    (hbj : isBlankKey (keys.getD ((cki + j) % keys.length) "") = false)
    (hokj : op ((cki + j) % keys.length) = Except.ok a)
    (hprev : ∀ pos, pos < j →
      isBlankKey (keys.getD ((cki + pos) % keys.length) "") = true ∨
      ∃ e, op ((cki + pos) % keys.length) = Except.error e) :
    ∀ f i lastError events, j - i = f → i ≤ j →
      (executeLoop keys cki op i lastError events).outcome = RetryOutcome.ok a ∧
      (executeLoop keys cki op i lastError events).finalIndex = (cki + j) % keys.length ∧
      attemptsOf (executeLoop keys cki op i lastError events).events =
        attemptsOf events ++
          (((List.range' i (j - i)).map (fun pos => (cki + pos) % keys.length)).filter
            (fun idx => !(isBlankKey (keys.getD idx "")))) ++
          [(cki + j) % keys.length] ∧
      rotatesOf (executeLoop keys cki op i lastError events).events =
        rotatesOf events ++
          (((List.range' i (j - i)).filter (fun pos => decide (0 < pos) &&
              !(isBlankKey (keys.getD ((cki + pos) % keys.length) "")))).map
            (fun pos => (cki + pos) % keys.length + 1)) ++
          (if 0 < j then [(cki + j) % keys.length + 1] else []) := by
  intro f
  induction f with
  | zero =>
    intro i le ev hf hij
    have hijeq : i = j := by omega
    subst hijeq
    rw [executeLoop_step_ok keys cki op i le ev a hj hbj hokj]
    refine ⟨rfl, rfl, ?_, ?_⟩
    · by_cases hzi : 0 < i <;> simp [hzi]
    · by_cases hzi : 0 < i <;> simp [hzi]
  | succ f ih =>
    intro i le ev hf hij
    have hiltj : i < j := by omega
    have hi : i < keys.length := by omega
    have hf1 : j - (i + 1) = f := by omega
    have hrange : List.range' i (j - i) = i :: List.range' (i + 1) f := by
      rw [hf]
      rfl
    by_cases hb : isBlankKey (keys.getD ((cki + i) % keys.length) "") = true
    · rw [executeLoop_step_blank keys cki op i le ev hi hb]
      have h4 := ih (i + 1) le ev hf1 (by omega)
      refine ⟨h4.1, h4.2.1, ?_, ?_⟩
      · rw [h4.2.2.1]
        simp only [hrange, hf1, List.map_cons, List.filter_cons, hb,
          Bool.not_true, Bool.false_eq_true, if_false, Bool.and_false, reduceIte]
      · rw [h4.2.2.2]
        simp only [hrange, hf1, List.filter_cons, hb,
          Bool.not_true, Bool.and_false, Bool.false_eq_true, if_false, reduceIte]
    · have hb2 : isBlankKey (keys.getD ((cki + i) % keys.length) "") = false := by
        simpa using hb
      rcases hprev i hiltj with hcontra | ⟨e, herr⟩
      · exact absurd hcontra hb
      · rw [executeLoop_step_err keys cki op i le ev e hi hb2 herr]
        have h4 := ih (i + 1) (some e)
          ((if 0 < i then ev ++ [RetryEvent.rotate ((cki + i) % keys.length + 1)] else ev) ++
            [RetryEvent.attempt ((cki + i) % keys.length)]) hf1 (by omega)
        refine ⟨h4.1, h4.2.1, ?_, ?_⟩
        · rw [h4.2.2.1]
          simp only [hrange, hf1, List.map_cons, List.filter_cons, hb2,
            Bool.not_false, if_true, reduceIte]
          by_cases hzi : 0 < i <;> simp [hzi]
        · rw [h4.2.2.2]
          simp only [hrange, hf1, List.filter_cons, hb2,
            Bool.not_false, Bool.and_true, reduceIte]
          by_cases hzi : 0 < i <;> simp [hzi]

theorem executeLoop_not_ok_final (keys : List String) (cki : Nat)
    (op : Nat → Except ε α) :
    ∀ f i lastError events, keys.length - i = f →
      (executeLoop keys cki op i lastError events).outcome.isOk = false →
      (executeLoop keys cki op i lastError events).finalIndex = cki := by
  intro f
  induction f with
  | zero =>
    intro i le ev hf _
    rw [executeLoop_exhaust keys cki op i le ev (by omega)]
  | succ f ih =>
    intro i le ev hf hno
    have hi : i < keys.length := by omega
    by_cases hb : isBlankKey (keys.getD ((cki + i) % keys.length) "") = true
    · rw [executeLoop_step_blank keys cki op i le ev hi hb] at hno ⊢
      exact ih (i + 1) le ev (by omega) hno
    · have hb2 : isBlankKey (keys.getD ((cki + i) % keys.length) "") = false := by
        simpa using hb
      rcases hres : op ((cki + i) % keys.length) with e | a
      · rw [executeLoop_step_err keys cki op i le ev e hi hb2 hres] at hno ⊢
        exact ih (i + 1) (some e) _ (by omega) hno
      · rw [executeLoop_step_ok keys cki op i le ev a hi hb2 hres] at hno
        exact absurd hno (by simp [RetryOutcome.isOk])

theorem foldl_some_getLast (err : Nat → ε) :
    ∀ (A : List Nat) (le : Option ε) (x : Nat), A.getLast? = some x →
      A.foldl (fun _ idx => some (err idx)) le = some (err x) := by
  intro A
  induction A with
  | nil => intro le x hx; simp at hx
  | cons a t ih =>
    intro le x hx
    rcases t with _ | ⟨b, t2⟩
    · simp at hx
      subst hx
      rfl
    · rw [List.getLast?_cons_cons] at hx
      exact ih (some (err a)) x hx

theorem rotates_shape (P : Nat → Bool) (g : Nat → Nat) (j : Nat) (hPj : P j = true) :
    ((List.range' 0 j).filter (fun pos => decide (0 < pos) && P pos)).map g ++
      (if 0 < j then [g j] else []) = ((List.range' 1 j).filter P).map g := by
  rcases j with _ | j2
  · rfl
  · have h0 : List.range' 0 (j2 + 1) = 0 :: List.range' 1 j2 := rfl
    rw [h0]
    have h1 : List.range' 1 (j2 + 1) = List.range' 1 j2 ++ [1 + j2] := by
      have := @List.range'_concat 1 1 j2
      simpa using this
    rw [h1, List.filter_append, List.filter_cons]
    have hfc : (List.range' 1 j2).filter (fun pos => decide (0 < pos) && P pos) =
        (List.range' 1 j2).filter P := by
      refine List.filter_congr ?_
      intro x hx
      have hx1 : 1 ≤ x := (List.mem_range'_1.mp hx).1
      simp [Nat.lt_of_lt_of_le Nat.zero_lt_one hx1]
    have h1j : 1 + j2 = j2 + 1 := by omega
    simp only [decide_eq_true_eq, Nat.lt_irrefl, Bool.false_and, reduceIte,
      Nat.zero_lt_succ, if_pos, hfc, h1j, List.filter_cons, hPj, Bool.and_true]
    simp [hPj]

theorem applyCheckpoint_eq (db : Option BatchProgress) (lastId : String)
    (total count : Nat) :
    applyCheckpoint db lastId total count =
      some { lastProcessedId := lastId, totalItems := total,
             processedCount := count, targetIds := targetIdsOf db } := by
  cases db <;> rfl

theorem retrainLoop_exhaust (targetItems : List KnowledgeItem)
    (analyze : Nat → Except String Unit) (stopFlag : Nat → Bool) (i : Nat)
    (db : Option BatchProgress) (calls processed : List String)
    (hni : ¬ i < targetItems.length) :
    retrainLoop targetItems analyze stopFlag i db calls processed =
      { status := RetrainStatus.completed, progress := none,
        calls := calls, processed := processed } := by
  rw [retrainLoop.eq_def]
  simp [hni]

theorem retrainLoop_stop (targetItems : List KnowledgeItem)
    (analyze : Nat → Except String Unit) (stopFlag : Nat → Bool) (i : Nat)
    (db : Option BatchProgress) (calls processed : List String)
    (hi : i < targetItems.length) (hs : stopFlag i = true) :
    retrainLoop targetItems analyze stopFlag i db calls processed =
      { status := RetrainStatus.paused, progress := db,
        calls := calls, processed := processed } := by
  rw [retrainLoop.eq_def]
  simp only [dif_pos hi]
  rw [if_pos hs]

theorem retrainLoop_step_fail (targetItems : List KnowledgeItem)
    (analyze : Nat → Except String Unit) (stopFlag : Nat → Bool) (i : Nat)
    (db : Option BatchProgress) (calls processed : List String) (msg : String)
    (hi : i < targetItems.length) (hs : stopFlag i = false)
    (herr : analyze i = Except.error msg) :
    retrainLoop targetItems analyze stopFlag i db calls processed =
      { status := RetrainStatus.failed msg, progress := db,
        calls := calls ++ [(targetItems.getD i { id := "" }).id],
        processed := processed } := by
  rw [retrainLoop.eq_def]
  simp only [dif_pos hi]
  rw [if_neg (by rw [hs]; exact Bool.false_ne_true)]
  simp only [herr]

theorem retrainLoop_step_ok (targetItems : List KnowledgeItem)
    (analyze : Nat → Except String Unit) (stopFlag : Nat → Bool) (i : Nat)
    (db : Option BatchProgress) (calls processed : List String)
    (hi : i < targetItems.length) (hs : stopFlag i = false)
    (hok : analyze i = Except.ok ()) :
    retrainLoop targetItems analyze stopFlag i db calls processed =
      retrainLoop targetItems analyze stopFlag (i + 1)
        (applyCheckpoint db (targetItems.getD i { id := "" }).id
          targetItems.length (i + 1))
        (calls ++ [(targetItems.getD i { id := "" }).id])
        (processed ++ [(targetItems.getD i { id := "" }).id]) := by
  rw [retrainLoop.eq_def]
  simp only [dif_pos hi]
  rw [if_neg (by rw [hs]; exact Bool.false_ne_true)]
  simp only [hok]

theorem retrainLoop_run_aux (targetItems : List KnowledgeItem)
    (analyze : Nat → Except String Unit) (stopFlag : Nat → Bool)
    (hstop : ∀ idx, idx < targetItems.length → stopFlag idx = false)
    (hok : ∀ idx, idx < targetItems.length → analyze idx = Except.ok ()) :
    ∀ f i db calls processed, targetItems.length - i = f →
      retrainLoop targetItems analyze stopFlag i db calls processed =
        { status := RetrainStatus.completed, progress := none,
          calls := calls ++ ((targetItems.drop i).map (fun k => k.id)),
          processed := processed ++ ((targetItems.drop i).map (fun k => k.id)) } := by
  intro f
  induction f with
  | zero =>
    intro i db calls processed hf
    rw [retrainLoop_exhaust targetItems analyze stopFlag i db calls processed (by omega)]
    rw [List.drop_eq_nil_of_le (by omega)]
    simp
  | succ f ih =>
    intro i db calls processed hf
    have hi : i < targetItems.length := by omega
    rw [retrainLoop_step_ok targetItems analyze stopFlag i db calls processed hi
      (hstop i hi) (hok i hi)]
    rw [ih (i + 1) _ _ _ (by omega)]
    rw [List.drop_eq_getElem_cons hi, List.map_cons, List.getD_eq_getElem _ _ hi]
    simp

theorem retrainLoop_pause_aux (targetItems : List KnowledgeItem)
    (analyze : Nat → Except String Unit) (stopFlag : Nat → Bool) (m : Nat)
    (hm : m < targetItems.length)
    (hstop : ∀ idx, idx < m → stopFlag idx = false)
    (hstopm : stopFlag m = true)
    (hok : ∀ idx, idx < m → analyze idx = Except.ok ()) :
    ∀ f i db calls processed, m - i = f → i ≤ m →
      retrainLoop targetItems analyze stopFlag i db calls processed =
        { status := RetrainStatus.paused,
          progress := if i < m then
              some { lastProcessedId := (targetItems.getD (m - 1) { id := "" }).id,
                     totalItems := targetItems.length, processedCount := m,
                     targetIds := targetIdsOf db }
            else db,
          calls := calls ++ ((List.range' i (m - i)).map
            (fun idx => (targetItems.getD idx { id := "" }).id)),
          processed := processed ++ ((List.range' i (m - i)).map
            (fun idx => (targetItems.getD idx { id := "" }).id)) } := by
  intro f
  induction f with
  | zero =>
    intro i db calls processed hf him
    have him2 : i = m := by omega
    subst him2
    rw [retrainLoop_stop targetItems analyze stopFlag i db calls processed hm hstopm]
    simp
  | succ f ih =>
    intro i db calls processed hf him
    have hiltm : i < m := by omega
    have hi : i < targetItems.length := by omega
    rw [retrainLoop_step_ok targetItems analyze stopFlag i db calls processed hi
      (hstop i hiltm) (hok i hiltm)]
    rw [ih (i + 1) _ _ _ (by omega) (by omega)]
    have hrange : List.range' i (m - i) = i :: List.range' (i + 1) f := by
      have hmi : m - i = f + 1 := hf
      rw [hmi]
      rfl
    have hf1 : m - (i + 1) = f := by omega
    rw [applyCheckpoint_eq]
    by_cases hi1m : i + 1 < m
    · simp only [if_pos hi1m, if_pos hiltm, targetIdsOf, hrange, hf1, List.map_cons]
      simp
    · have him2 : i + 1 = m := by omega
      simp only [if_neg hi1m, if_pos hiltm, targetIdsOf, hrange, hf1, List.map_cons]
      have hmi1 : m - 1 = i := by omega
      simp [him2, hmi1]

theorem findIdx?_eq_some_of (d : α) (p : α → Bool) :
    ∀ (l : List α) (j : Nat), j < l.length → p (l.getD j d) = true →
      (∀ i, i < j → p (l.getD i d) = false) → l.findIdx? p = some j := by
  intro l
  induction l with
  | nil => intro j hj; simp at hj
  | cons a t ih =>
    intro j hj hpj hbefore
    rcases j with _ | j2
    · simp only [List.getD_cons_zero] at hpj
      simp [List.findIdx?_cons, hpj]
    · have hpa : p a = false := by
        have := hbefore 0 (Nat.succ_pos j2)
        simpa using this
      have ht : t.findIdx? p = some j2 := by
        refine ih j2 (by simpa using hj) (by simpa using hpj) ?_
        intro i hi
        have := hbefore (i + 1) (by omega)
        simpa using this
      simp [List.findIdx?_cons, hpa, ht]

theorem findIdx?_eq_none_of (p : α → Bool) (l : List α)
    (h : ∀ x ∈ l, p x = false) : l.findIdx? p = none :=
  List.findIdx?_eq_none_iff.mpr h

/-- C1: on a non-empty pool where every non-blank credential fails, the call
fails, and the pool indices attempted are exactly the circular candidate order
`(currentKeyIndex + i) % size` filtered to the non-blank credentials — so the
candidates are tried in circular order, each non-blank credential is attempted
exactly once (the attempt list has no duplicates and holds precisely the
non-blank indices), and blank credentials are never attempted. -/
theorem executeWithRetry_all_fail_order (svc : GeminiService)
    (op : Nat → Except ε α) (err : Nat → ε)
    (hn : 0 < svc.apiKeys.length)
    (hop : ∀ idx, idx < svc.apiKeys.length →
      isBlankKey (svc.apiKeys.getD idx "") = false →
      op idx = Except.error (err idx)) :
    (svc.executeWithRetry op).outcome.isOk = false ∧
    attemptsOf (svc.executeWithRetry op).events =
      (candidateOrder svc.apiKeys.length svc.currentKeyIndex).filter
        (fun idx => !(isBlankKey (svc.apiKeys.getD idx ""))) ∧
    (attemptsOf (svc.executeWithRetry op).events).Nodup ∧
    (∀ idx, idx ∈ attemptsOf (svc.executeWithRetry op).events ↔
      (idx < svc.apiKeys.length ∧ isBlankKey (svc.apiKeys.getD idx "") = false)) := by
  have hne : ¬ svc.apiKeys.length = 0 := by omega
  have hunfold : svc.executeWithRetry op =
      executeLoop svc.apiKeys svc.currentKeyIndex op 0 none [] := by
    unfold GeminiService.executeWithRetry
    rw [if_neg hne]
  have haux := executeLoop_all_fail_aux svc.apiKeys svc.currentKeyIndex op err hop
    (svc.apiKeys.length) 0 none [] rfl
  have hatt : attemptsOf (svc.executeWithRetry op).events =
      (candidateOrder svc.apiKeys.length svc.currentKeyIndex).filter
        (fun idx => !(isBlankKey (svc.apiKeys.getD idx ""))) := by
    rw [hunfold, haux.2.1, failCandidates_zero]
    rfl
  refine ⟨?_, hatt, ?_, ?_⟩
  · rw [hunfold, haux.1]
    rcases (failCandidates svc.apiKeys svc.currentKeyIndex 0).foldl
      (fun _ idx => some (err idx)) none with _ | e <;> rfl
  · rw [hatt]
    exact List.Nodup.filter _ (candidateOrder_nodup _ _)
  · intro idx
    rw [hatt, List.mem_filter, mem_candidateOrder hn]
    constructor
    · rintro ⟨h1, h2⟩
      refine ⟨h1, ?_⟩
      simpa using h2
    · rintro ⟨h1, h2⟩
      refine ⟨h1, ?_⟩
      simpa using h2

theorem executeWithRetry_all_fail_order_witness :
    (svcTwoKeys.executeWithRetry opAlwaysFail).outcome.isOk = false ∧
    attemptsOf (svcTwoKeys.executeWithRetry opAlwaysFail).events =
      (candidateOrder svcTwoKeys.apiKeys.length svcTwoKeys.currentKeyIndex).filter
        (fun idx => !(isBlankKey (svcTwoKeys.apiKeys.getD idx ""))) ∧
    (attemptsOf (svcTwoKeys.executeWithRetry opAlwaysFail).events).Nodup ∧
    (∀ idx, idx ∈ attemptsOf (svcTwoKeys.executeWithRetry opAlwaysFail).events ↔
      (idx < svcTwoKeys.apiKeys.length ∧
        isBlankKey (svcTwoKeys.apiKeys.getD idx "") = false)) :=
  executeWithRetry_all_fail_order svcTwoKeys opAlwaysFail (fun _ => "boom")
    (by decide) (fun _ _ _ => rfl)

/-- C2: when the first succeeding candidate sits at loop position `j` (every
earlier position is blank or fails), the call returns that candidate's result
immediately — the attempt list ends at that candidate, so no later candidate is
tried — and the sticky index is set to exactly that candidate's pool index. -/
theorem executeWithRetry_first_success (svc : GeminiService)
    (op : Nat → Except ε α) (j : Nat) (a : α)
    (hj : j < svc.apiKeys.length)
    (hbj : isBlankKey
      (svc.apiKeys.getD ((svc.currentKeyIndex + j) % svc.apiKeys.length) "") = false)
    (hokj : op ((svc.currentKeyIndex + j) % svc.apiKeys.length) = Except.ok a)
    (hprev : ∀ pos, pos < j →
      isBlankKey
        (svc.apiKeys.getD ((svc.currentKeyIndex + pos) % svc.apiKeys.length) "") = true ∨
      ∃ e, op ((svc.currentKeyIndex + pos) % svc.apiKeys.length) = Except.error e) :
    (svc.executeWithRetry op).outcome = RetryOutcome.ok a ∧
    (svc.executeWithRetry op).finalIndex =
      (svc.currentKeyIndex + j) % svc.apiKeys.length ∧
    attemptsOf (svc.executeWithRetry op).events =
      (((List.range j).map (fun pos => (svc.currentKeyIndex + pos) % svc.apiKeys.length)).filter
        (fun idx => !(isBlankKey (svc.apiKeys.getD idx "")))) ++
      [(svc.currentKeyIndex + j) % svc.apiKeys.length] := by
  have hne : ¬ svc.apiKeys.length = 0 := by omega
  have hunfold : svc.executeWithRetry op =
      executeLoop svc.apiKeys svc.currentKeyIndex op 0 none [] := by
    unfold GeminiService.executeWithRetry
    rw [if_neg hne]
  have haux := executeLoop_success_aux svc.apiKeys svc.currentKeyIndex op j a
    hj hbj hokj hprev j 0 none [] rfl (Nat.zero_le j)
  refine ⟨?_, ?_, ?_⟩
  · rw [hunfold, haux.1]
  · rw [hunfold, haux.2.1]
  · rw [hunfold, haux.2.2.1, List.range_eq_range']
    rfl

theorem executeWithRetry_first_success_witness :
    (svcExample.executeWithRetry opExample).outcome = RetryOutcome.ok "out" ∧
    (svcExample.executeWithRetry opExample).finalIndex =
      (svcExample.currentKeyIndex + 1) % svcExample.apiKeys.length ∧
    attemptsOf (svcExample.executeWithRetry opExample).events =
      (((List.range 1).map
          (fun pos => (svcExample.currentKeyIndex + pos) % svcExample.apiKeys.length)).filter
        (fun idx => !(isBlankKey (svcExample.apiKeys.getD idx "")))) ++
      [(svcExample.currentKeyIndex + 1) % svcExample.apiKeys.length] :=
  executeWithRetry_first_success svcExample opExample 1 "out"
    (by decide) (by decide) rfl
    (fun pos hp => by
      interval_cases pos
      exact Or.inr ⟨"boom", rfl⟩)

/-- C3: on a non-empty pool where every non-blank credential fails and at
least one credential is non-blank, the call surfaces a failure (it is not
silently swallowed): the outcome is the exhaustion error wrapping the error of
the last attempted candidate — the final value of `lastError`. -/
theorem executeWithRetry_exhausted_wraps_last (svc : GeminiService)
    (op : Nat → Except ε α) (err : Nat → ε)
    (hn : 0 < svc.apiKeys.length)
    (hop : ∀ idx, idx < svc.apiKeys.length →
      isBlankKey (svc.apiKeys.getD idx "") = false →
      op idx = Except.error (err idx))
    (hsome : ∃ idx, idx < svc.apiKeys.length ∧
      isBlankKey (svc.apiKeys.getD idx "") = false) :
    ∃ idx, (attemptsOf (svc.executeWithRetry op).events).getLast? = some idx ∧
      (svc.executeWithRetry op).outcome = RetryOutcome.thrownLast (err idx) ∧
      (svc.executeWithRetry op).outcome.isOk = false := by
  have hne : ¬ svc.apiKeys.length = 0 := by omega
  have hunfold : svc.executeWithRetry op =
      executeLoop svc.apiKeys svc.currentKeyIndex op 0 none [] := by
    unfold GeminiService.executeWithRetry
    rw [if_neg hne]
  have haux := executeLoop_all_fail_aux svc.apiKeys svc.currentKeyIndex op err hop
    (svc.apiKeys.length) 0 none [] rfl
  have hattfc : attemptsOf (svc.executeWithRetry op).events =
      failCandidates svc.apiKeys svc.currentKeyIndex 0 := by
    rw [hunfold, haux.2.1]
    rfl
  obtain ⟨w, hw1, hw2⟩ := hsome
  have hwmem : w ∈ failCandidates svc.apiKeys svc.currentKeyIndex 0 := by
    rw [failCandidates_zero, List.mem_filter, mem_candidateOrder hn]
    refine ⟨hw1, ?_⟩
    simpa using hw2
  have hnonnil : failCandidates svc.apiKeys svc.currentKeyIndex 0 ≠ [] :=
    List.ne_nil_of_mem hwmem
  obtain ⟨x, hx⟩ : ∃ x, (failCandidates svc.apiKeys svc.currentKeyIndex 0).getLast? = some x := by
    rcases hgl : (failCandidates svc.apiKeys svc.currentKeyIndex 0).getLast? with _ | x
    · exact absurd (List.getLast?_eq_none_iff.mp hgl) hnonnil
    · exact ⟨x, rfl⟩
  refine ⟨x, ?_, ?_, ?_⟩
  · rw [hattfc]
    exact hx
  · rw [hunfold, haux.1, foldl_some_getLast err _ none x hx]
  · rw [hunfold, haux.1, foldl_some_getLast err _ none x hx]
    rfl

theorem executeWithRetry_exhausted_wraps_last_witness :
    ∃ idx, (attemptsOf (svcTwoKeys.executeWithRetry opAlwaysFail).events).getLast? = some idx ∧
      (svcTwoKeys.executeWithRetry opAlwaysFail).outcome =
        RetryOutcome.thrownLast ((fun _ => "boom") idx) ∧
      (svcTwoKeys.executeWithRetry opAlwaysFail).outcome.isOk = false :=
  executeWithRetry_exhausted_wraps_last svcTwoKeys opAlwaysFail (fun _ => "boom")
    (by decide) (fun _ _ _ => rfl) ⟨0, by decide, by decide⟩

/-- C4: for a successful call whose first succeeding candidate sits at loop
position `j`, the rotation notifications emitted are exactly one per non-blank
loop position in `1..j` (one per retry past the first candidate), in order,
each carrying the 1-based pool index of the credential about to be tried; in
particular none is emitted when the first candidate (position 0) succeeds. -/
theorem executeWithRetry_rotation_events (svc : GeminiService)
    (op : Nat → Except ε α) (j : Nat) (a : α)
    (hj : j < svc.apiKeys.length)
    (hbj : isBlankKey
      (svc.apiKeys.getD ((svc.currentKeyIndex + j) % svc.apiKeys.length) "") = false)
    (hokj : op ((svc.currentKeyIndex + j) % svc.apiKeys.length) = Except.ok a)
    (hprev : ∀ pos, pos < j →
      isBlankKey
        (svc.apiKeys.getD ((svc.currentKeyIndex + pos) % svc.apiKeys.length) "") = true ∨
      ∃ e, op ((svc.currentKeyIndex + pos) % svc.apiKeys.length) = Except.error e) :
    (svc.executeWithRetry op).outcome = RetryOutcome.ok a ∧
    rotatesOf (svc.executeWithRetry op).events =
      ((List.range' 1 j).filter (fun pos =>
          !(isBlankKey
            (svc.apiKeys.getD ((svc.currentKeyIndex + pos) % svc.apiKeys.length) "")))).map
        (fun pos => (svc.currentKeyIndex + pos) % svc.apiKeys.length + 1) := by
  have hne : ¬ svc.apiKeys.length = 0 := by omega
  have hunfold : svc.executeWithRetry op =
      executeLoop svc.apiKeys svc.currentKeyIndex op 0 none [] := by
    unfold GeminiService.executeWithRetry
    rw [if_neg hne]
  have haux := executeLoop_success_aux svc.apiKeys svc.currentKeyIndex op j a
    hj hbj hokj hprev j 0 none [] rfl (Nat.zero_le j)
  refine ⟨?_, ?_⟩
  · rw [hunfold, haux.1]
  · rw [hunfold, haux.2.2.2]
    have hsh := rotates_shape
      (fun pos => !(isBlankKey
        (svc.apiKeys.getD ((svc.currentKeyIndex + pos) % svc.apiKeys.length) "")))
      (fun pos => (svc.currentKeyIndex + pos) % svc.apiKeys.length + 1) j
      (by simpa using hbj)
    simpa using hsh

theorem executeWithRetry_rotation_events_witness :
    (svcExample.executeWithRetry opExample).outcome = RetryOutcome.ok "out" ∧
    rotatesOf (svcExample.executeWithRetry opExample).events =
      ((List.range' 1 1).filter (fun pos =>
          !(isBlankKey
            (svcExample.apiKeys.getD
              ((svcExample.currentKeyIndex + pos) % svcExample.apiKeys.length) "")))).map
        (fun pos => (svcExample.currentKeyIndex + pos) % svcExample.apiKeys.length + 1) :=
  executeWithRetry_rotation_events svcExample opExample 1 "out"
    (by decide) (by decide) rfl
    (fun pos hp => by
      interval_cases pos
      exact Or.inr ⟨"boom", rfl⟩)

/-- C5: with an empty credential list the call fails fast with the
configuration error: no credential attempt, no rotation notification, no event
at all, and the sticky index is left unchanged. -/
theorem executeWithRetry_no_keys (svc : GeminiService) (op : Nat → Except ε α)
    (h0 : svc.apiKeys.length = 0) :
    (svc.executeWithRetry op).outcome = RetryOutcome.noKeysConfigured ∧
    (svc.executeWithRetry op).outcome.errorMessage =
      some "No API Keys configured. Please add them in Settings." ∧
    (svc.executeWithRetry op).events = [] ∧
    attemptsOf (svc.executeWithRetry op).events = [] ∧
    rotatesOf (svc.executeWithRetry op).events = [] ∧
    (svc.executeWithRetry op).finalIndex = svc.currentKeyIndex := by
  unfold GeminiService.executeWithRetry
  rw [if_pos h0]
  exact ⟨rfl, rfl, rfl, rfl, rfl, rfl⟩

theorem executeWithRetry_no_keys_witness :
    (svcNoKeys.executeWithRetry opAlwaysFail).outcome = RetryOutcome.noKeysConfigured ∧
    (svcNoKeys.executeWithRetry opAlwaysFail).outcome.errorMessage =
      some "No API Keys configured. Please add them in Settings." ∧
    (svcNoKeys.executeWithRetry opAlwaysFail).events = [] ∧
    attemptsOf (svcNoKeys.executeWithRetry opAlwaysFail).events = [] ∧
    rotatesOf (svcNoKeys.executeWithRetry opAlwaysFail).events = [] ∧
    (svcNoKeys.executeWithRetry opAlwaysFail).finalIndex = svcNoKeys.currentKeyIndex :=
  executeWithRetry_no_keys svcNoKeys opAlwaysFail rfl

/-- C6: the sticky index is mutated only by a successful invocation — every
call whose outcome is not a success leaves `currentKeyIndex` exactly as it was
before the call, however many candidates were attempted. -/
theorem executeWithRetry_failure_preserves_index (svc : GeminiService)
    (op : Nat → Except ε α)
    (hfail : (svc.executeWithRetry op).outcome.isOk = false) :
    (svc.executeWithRetry op).finalIndex = svc.currentKeyIndex := by
  by_cases h0 : svc.apiKeys.length = 0
  · unfold GeminiService.executeWithRetry
    rw [if_pos h0]
  · have hunfold : svc.executeWithRetry op =
        executeLoop svc.apiKeys svc.currentKeyIndex op 0 none [] := by
      unfold GeminiService.executeWithRetry
      rw [if_neg h0]
    rw [hunfold] at hfail ⊢
    exact executeLoop_not_ok_final svc.apiKeys svc.currentKeyIndex op
      (svc.apiKeys.length) 0 none [] rfl hfail

theorem executeWithRetry_failure_preserves_index_witness :
    (svcTwoKeys.executeWithRetry opAlwaysFail).finalIndex = svcTwoKeys.currentKeyIndex :=
  executeWithRetry_failure_preserves_index svcTwoKeys opAlwaysFail
    (by simp [svcTwoKeys, opAlwaysFail, GeminiService.executeWithRetry, executeLoop,
      isBlankKey, RetryOutcome.isOk])

/-- C10: on a non-empty pool in which every credential is blank or
whitespace-only, the call makes no attempt, emits no rotation notification,
leaves the sticky index unchanged, and throws the generic fallback error
("All API keys failed."), not the no-credentials configuration error. -/
theorem executeWithRetry_all_blank (svc : GeminiService) (op : Nat → Except ε α)
    (hn : 0 < svc.apiKeys.length)
    (hbl : ∀ idx, idx < svc.apiKeys.length →
      isBlankKey (svc.apiKeys.getD idx "") = true) :
    (svc.executeWithRetry op).outcome = RetryOutcome.allKeysFailed ∧
    (svc.executeWithRetry op).outcome.errorMessage = some "All API keys failed." ∧
    (svc.executeWithRetry op).outcome ≠ RetryOutcome.noKeysConfigured ∧
    (svc.executeWithRetry op).events = [] ∧
    attemptsOf (svc.executeWithRetry op).events = [] ∧
    rotatesOf (svc.executeWithRetry op).events = [] ∧
    (svc.executeWithRetry op).finalIndex = svc.currentKeyIndex := by
  have hne : ¬ svc.apiKeys.length = 0 := by omega
  have hunfold : svc.executeWithRetry op =
      executeLoop svc.apiKeys svc.currentKeyIndex op 0 none [] := by
    unfold GeminiService.executeWithRetry
    rw [if_neg hne]
  have haux := executeLoop_all_blank_aux svc.apiKeys svc.currentKeyIndex op hbl
    (svc.apiKeys.length) 0 none [] rfl
  rw [hunfold, haux]
  exact ⟨rfl, rfl, by simp, rfl, rfl, rfl, rfl⟩

theorem executeWithRetry_all_blank_witness :
    (svcAllBlank.executeWithRetry opAlwaysFail).outcome = RetryOutcome.allKeysFailed ∧
    (svcAllBlank.executeWithRetry opAlwaysFail).outcome.errorMessage =
      some "All API keys failed." ∧
    (svcAllBlank.executeWithRetry opAlwaysFail).outcome ≠ RetryOutcome.noKeysConfigured ∧
    (svcAllBlank.executeWithRetry opAlwaysFail).events = [] ∧
    attemptsOf (svcAllBlank.executeWithRetry opAlwaysFail).events = [] ∧
    rotatesOf (svcAllBlank.executeWithRetry opAlwaysFail).events = [] ∧
    (svcAllBlank.executeWithRetry opAlwaysFail).finalIndex = svcAllBlank.currentKeyIndex :=
  executeWithRetry_all_blank svcAllBlank opAlwaysFail (by decide)
    (by decide)

/-- C7: resuming with a saved checkpoint whose `lastProcessedId` occurs first
at 0-based position `j` of the (possibly filtered) target list starts
processing at index `j + 1` — the items processed are exactly those from index
`j + 1` on; when the id is the empty string or absent from the target list,
processing starts at index 0, i.e. every target item is processed. -/
theorem executeRetrain_resume_start (p : BatchProgress)
    (knowledgeList : List KnowledgeItem) (selectedItemIds apiKeys : List String)
    (analyze : Nat → Except String Unit) (stopFlag : Nat → Bool) (j : Nat)
    (hkeys : apiKeys.length ≠ 0)
    (hstop : ∀ i, stopFlag i = false)
    (hok : ∀ i, analyze i = Except.ok ()) :
    (j < (targetItemsOf knowledgeList selectedItemIds).length →
      ((targetItemsOf knowledgeList selectedItemIds).getD j { id := "" }).id
        = p.lastProcessedId →
      (∀ i, i < j →
        ((targetItemsOf knowledgeList selectedItemIds).getD i { id := "" }).id
          ≠ p.lastProcessedId) →
      p.lastProcessedId ≠ "" →
      (executeRetrain true (some p) knowledgeList selectedItemIds apiKeys
          analyze stopFlag).processed =
        ((targetItemsOf knowledgeList selectedItemIds).drop (j + 1)).map
          (fun k => k.id)) ∧
    ((p.lastProcessedId = "" ∨
        ∀ k ∈ targetItemsOf knowledgeList selectedItemIds, k.id ≠ p.lastProcessedId) →
      (executeRetrain true (some p) knowledgeList selectedItemIds apiKeys
          analyze stopFlag).processed =
        (targetItemsOf knowledgeList selectedItemIds).map (fun k => k.id)) := by
  have hunfold : executeRetrain true (some p) knowledgeList selectedItemIds apiKeys
      analyze stopFlag =
      retrainLoop (targetItemsOf knowledgeList selectedItemIds) analyze stopFlag
        (computeStartIndex true (some p) (targetItemsOf knowledgeList selectedItemIds))
        (some p) [] [] := by
    simp only [executeRetrain]
    rw [if_neg hkeys]
    simp
  have hrun : ∀ s, retrainLoop (targetItemsOf knowledgeList selectedItemIds) analyze
      stopFlag s (some p) [] [] =
      { status := RetrainStatus.completed, progress := none,
        calls := ((targetItemsOf knowledgeList selectedItemIds).drop s).map (fun k => k.id),
        processed := ((targetItemsOf knowledgeList selectedItemIds).drop s).map
          (fun k => k.id) } := by
    intro s
    have h := retrainLoop_run_aux (targetItemsOf knowledgeList selectedItemIds)
      analyze stopFlag (fun idx _ => hstop idx) (fun idx _ => hok idx)
      ((targetItemsOf knowledgeList selectedItemIds).length - s) s (some p) [] [] rfl
    simpa using h
  constructor
  · intro hj hval hbefore hne
    have hie : p.lastProcessedId.isEmpty = false := by
      rcases hx : p.lastProcessedId.isEmpty with _ | _
      · rfl
      · exact absurd ((String.isEmpty_iff _).mp hx) hne
    have hfi : (targetItemsOf knowledgeList selectedItemIds).findIdx?
        (fun k => k.id == p.lastProcessedId) = some j := by
      refine findIdx?_eq_some_of { id := "" } _ _ j hj (beq_iff_eq.mpr hval) ?_
      intro i hi
      exact Bool.eq_false_iff.mpr (fun h => hbefore i hi (beq_iff_eq.mp h))
    have hcsi : computeStartIndex true (some p)
        (targetItemsOf knowledgeList selectedItemIds) = j + 1 := by
      simp only [computeStartIndex]
      rw [if_neg (by rw [hie]; exact Bool.false_ne_true), hfi]
    rw [hunfold, hcsi, hrun]
  · intro habs
    have hcsi : computeStartIndex true (some p)
        (targetItemsOf knowledgeList selectedItemIds) = 0 := by
      simp only [computeStartIndex]
      rcases habs with hemp | habsent
      · rw [if_pos ((String.isEmpty_iff _).mpr hemp)]
      · by_cases hie : p.lastProcessedId.isEmpty = true
        · rw [if_pos hie]
        · rw [if_neg hie, findIdx?_eq_none_of _ _
            (fun x hx => Bool.eq_false_iff.mpr (fun h => habsent x hx (beq_iff_eq.mp h)))]
    rw [hunfold, hcsi, hrun, List.drop_zero]

theorem executeRetrain_resume_start_witness :
    (executeRetrain true (some progressAtB) klThree [] ["k"]
        (fun _ => Except.ok ()) (fun _ => false)).processed =
      ((targetItemsOf klThree []).drop 2).map (fun k => k.id) :=
  (executeRetrain_resume_start progressAtB klThree [] ["k"]
      (fun _ => Except.ok ()) (fun _ => false) 1
      (by decide) (fun _ => rfl) (fun _ => rfl)).1
    (by decide) (by decide)
    (fun i hi => by interval_cases i; decide)
    (by decide)

/-- C8: in a run whose checkpoint at entry is coherent with the start index
`s` and in which the cancellation flag is first seen set before item `m`
begins, the run ends paused (not completed, not failed); the items analyzed in
the run are exactly those at indices `s..m-1` (item `m` is never attempted);
and the checkpoint still exists with `processedCount = m` and, when `m > 0`,
`lastProcessedId` equal to the id of item `m - 1` — it is neither advanced to
item `m` nor deleted. -/
theorem executeRetrain_pause_checkpoint (resume : Bool)
    (savedProgress : Option BatchProgress) (knowledgeList : List KnowledgeItem)
    (selectedItemIds apiKeys : List String) (analyze : Nat → Except String Unit)
    (stopFlag : Nat → Bool) (m s : Nat) (T : List KnowledgeItem) (p0 : BatchProgress)
    (hT : T = targetItemsOf knowledgeList selectedItemIds)
    (hs : s = computeStartIndex resume savedProgress T)
    (hkeys : apiKeys.length ≠ 0)
    (hdb : (if resume then savedProgress
            else some (freshProgress T.length selectedItemIds)) = some p0)
    (hcount : p0.processedCount = s)
    (hlast : 0 < s → p0.lastProcessedId = (T.getD (s - 1) { id := "" }).id)
    (hsm : s ≤ m) (hm : m < T.length)
    (hstop : ∀ i, i < m → stopFlag i = false)
    (hstopm : stopFlag m = true)
    (hok : ∀ i, i < m → analyze i = Except.ok ()) :
    (executeRetrain resume savedProgress knowledgeList selectedItemIds apiKeys
        analyze stopFlag).status = RetrainStatus.paused ∧
    (executeRetrain resume savedProgress knowledgeList selectedItemIds apiKeys
        analyze stopFlag).calls =
      (List.range' s (m - s)).map (fun idx => (T.getD idx { id := "" }).id) ∧
    (executeRetrain resume savedProgress knowledgeList selectedItemIds apiKeys
        analyze stopFlag).processed =
      (List.range' s (m - s)).map (fun idx => (T.getD idx { id := "" }).id) ∧
    ∃ q, (executeRetrain resume savedProgress knowledgeList selectedItemIds apiKeys
        analyze stopFlag).progress = some q ∧
      q.processedCount = m ∧
      (0 < m → q.lastProcessedId = (T.getD (m - 1) { id := "" }).id) := by
  subst hT
  have hunfold : executeRetrain resume savedProgress knowledgeList selectedItemIds
      apiKeys analyze stopFlag =
      retrainLoop (targetItemsOf knowledgeList selectedItemIds) analyze stopFlag s
        (some p0) [] [] := by
    simp only [executeRetrain]
    rw [if_neg hkeys, hdb, ← hs]
  have haux := retrainLoop_pause_aux (targetItemsOf knowledgeList selectedItemIds)
    analyze stopFlag m hm hstop hstopm hok (m - s) s (some p0) [] [] rfl hsm
  rw [hunfold, haux]
  refine ⟨rfl, by simp, by simp, ?_⟩
  by_cases hsltm : s < m
  · simp only [if_pos hsltm]
    exact ⟨_, rfl, rfl, fun _ => rfl⟩
  · have hsem : s = m := by omega
    simp only [if_neg hsltm]
    refine ⟨p0, rfl, by omega, ?_⟩
    intro hm0
    rw [hlast (by omega), hsem]

theorem executeRetrain_pause_checkpoint_witness :
    (executeRetrain false none klThree [] ["k"] (fun _ => Except.ok ())
        (fun i => decide (2 ≤ i))).status = RetrainStatus.paused ∧
    (executeRetrain false none klThree [] ["k"] (fun _ => Except.ok ())
        (fun i => decide (2 ≤ i))).calls =
      (List.range' 0 (2 - 0)).map
        (fun idx => ((targetItemsOf klThree []).getD idx { id := "" }).id) ∧
    (executeRetrain false none klThree [] ["k"] (fun _ => Except.ok ())
        (fun i => decide (2 ≤ i))).processed =
      (List.range' 0 (2 - 0)).map
        (fun idx => ((targetItemsOf klThree []).getD idx { id := "" }).id) ∧
    ∃ q, (executeRetrain false none klThree [] ["k"] (fun _ => Except.ok ())
        (fun i => decide (2 ≤ i))).progress = some q ∧
      q.processedCount = 2 ∧
      (0 < 2 → q.lastProcessedId = ((targetItemsOf klThree []).getD (2 - 1) { id := "" }).id) :=
  executeRetrain_pause_checkpoint false none klThree [] ["k"]
    (fun _ => Except.ok ()) (fun i => decide (2 ≤ i)) 2 0
    (targetItemsOf klThree []) (freshProgress (targetItemsOf klThree []).length [])
    rfl rfl (by decide) rfl rfl
    (fun h => absurd h (by decide))
    (by decide) (by decide)
    (by decide) (by decide) (fun _ _ => rfl)

/-- C9: a run in which the stop flag is never seen and every item analysis
succeeds processes every remaining target item, reports completion, and
deletes the checkpoint record — a subsequent read of the progress record
returns not-found (`none`). -/
theorem executeRetrain_complete_deletes_progress (resume : Bool)
    (savedProgress : Option BatchProgress) (knowledgeList : List KnowledgeItem)
    (selectedItemIds apiKeys : List String) (analyze : Nat → Except String Unit)
    (stopFlag : Nat → Bool)
    (hkeys : apiKeys.length ≠ 0)
    (hstop : ∀ i, stopFlag i = false)
    (hok : ∀ i, analyze i = Except.ok ()) :
    (executeRetrain resume savedProgress knowledgeList selectedItemIds apiKeys
        analyze stopFlag).progress = none ∧
    (executeRetrain resume savedProgress knowledgeList selectedItemIds apiKeys
        analyze stopFlag).status = RetrainStatus.completed ∧
    (executeRetrain resume savedProgress knowledgeList selectedItemIds apiKeys
        analyze stopFlag).processed =
      ((targetItemsOf knowledgeList selectedItemIds).drop
        (computeStartIndex resume savedProgress
          (targetItemsOf knowledgeList selectedItemIds))).map (fun k => k.id) := by
  have hunfold : executeRetrain resume savedProgress knowledgeList selectedItemIds
      apiKeys analyze stopFlag =
      retrainLoop (targetItemsOf knowledgeList selectedItemIds) analyze stopFlag
        (computeStartIndex resume savedProgress
          (targetItemsOf knowledgeList selectedItemIds))
        (if resume then savedProgress
         else some (freshProgress (targetItemsOf knowledgeList selectedItemIds).length
          selectedItemIds)) [] [] := by
    simp only [executeRetrain]
    rw [if_neg hkeys]
  have haux := retrainLoop_run_aux (targetItemsOf knowledgeList selectedItemIds)
    analyze stopFlag (fun idx _ => hstop idx) (fun idx _ => hok idx)
    ((targetItemsOf knowledgeList selectedItemIds).length -
      computeStartIndex resume savedProgress (targetItemsOf knowledgeList selectedItemIds))
    (computeStartIndex resume savedProgress (targetItemsOf knowledgeList selectedItemIds))
    (if resume then savedProgress
     else some (freshProgress (targetItemsOf knowledgeList selectedItemIds).length
      selectedItemIds)) [] [] rfl
  rw [hunfold, haux]
  exact ⟨rfl, rfl, by simp⟩

theorem executeRetrain_complete_deletes_progress_witness :
    (executeRetrain false none klThree [] ["k"] (fun _ => Except.ok ())
        (fun _ => false)).progress = none ∧
    (executeRetrain false none klThree [] ["k"] (fun _ => Except.ok ())
        (fun _ => false)).status = RetrainStatus.completed ∧
    (executeRetrain false none klThree [] ["k"] (fun _ => Except.ok ())
        (fun _ => false)).processed =
      ((targetItemsOf klThree []).drop
        (computeStartIndex false none (targetItemsOf klThree []))).map (fun k => k.id) :=
  executeRetrain_complete_deletes_progress false none klThree [] ["k"]
    (fun _ => Except.ok ()) (fun _ => false)
    (by decide) (fun _ => rfl) (fun _ => rfl)

end AgentTiar
